import Mathlib

/-!
Verification of the image-augmentor pipeline (`src/unnamed/part_000`).

The JavaScript source drives the external `sharp` raster library.  The
embedding models a raster as a record of dimensions and a pixel map, models
each chained collaborator call as applied in sequence, keeps the region
operations whose semantics the source fully determines (`extract`, `extend`,
composite placement) concrete, and leaves the per-pixel kernels of the
collaborator (blur, sharpen, modulate, affine, rotate, resize, flatten)
abstract through a `CollabSem` parameter, since only their dimensions and call
arguments matter to the source's bookkeeping.  JavaScript numbers are
modelled as exact rationals, `Math.floor` as `Int.floor` and `Math.round`
as half-up rounding.  A pipeline run records, besides the image, the list
of collaborator effect calls with their exact arguments, the list of file
paths written, and the number of `Math.random()` draws consumed.
-/

namespace ImageAug

/-- A decoded raster: integer dimensions and a total pixel map. -/
structure Image (α : Type) where
  width : ℕ
  height : ℕ
  pix : ℕ → ℕ → α

/-- JavaScript `Math.round`: rounds half toward positive infinity. -/
def jsRound (x : ℚ) : ℤ := ⌊x + 1/2⌋

/-- Source `getRandomInRange(range)` (part_000 lines 30-32):
`Math.random() * range * 2 - range`, with `rand` the `Math.random()` draw. -/
def getRandomInRange (rand range : ℚ) : ℚ := rand * range * 2 - range

/-- Collaborator `extract` (crop).  Sharp rejects a region that is not
strictly positive or that exceeds the current image bounds. -/
def extract {α : Type} (img : Image α) (left top w h : ℤ) : Option (Image α) :=
  if 0 ≤ left ∧ 0 ≤ top ∧ 0 < w ∧ 0 < h ∧
      left + w ≤ (img.width : ℤ) ∧ top + h ≤ (img.height : ℤ) then
    some ⟨w.toNat, h.toNat, fun x y => img.pix (x + left.toNat) (y + top.toNat)⟩
  else none

/-- Collaborator `extend` (pad with background).  Sharp rejects negative
extension amounts. -/
def extend {α : Type} (img : Image α) (top bottom left right : ℤ) (bg : α) :
    Option (Image α) :=
  if 0 ≤ top ∧ 0 ≤ bottom ∧ 0 ≤ left ∧ 0 ≤ right then
    some ⟨img.width + left.toNat + right.toNat,
          img.height + top.toNat + bottom.toNat,
          fun x y =>
            if left.toNat ≤ x ∧ x < left.toNat + img.width ∧
                top.toNat ≤ y ∧ y < top.toNat + img.height then
              img.pix (x - left.toNat) (y - top.toNat)
            else bg⟩
  else none

/-- Collaborator `extend` invoked with arbitrary JavaScript numbers, as the
zoom-out branch does: sharp additionally rejects non-integer amounts. -/
def extendQ {α : Type} (img : Image α) (top bottom left right : ℚ) (bg : α) :
    Option (Image α) :=
  if top.den = 1 ∧ bottom.den = 1 ∧ left.den = 1 ∧ right.den = 1 then
    extend img top.num bottom.num left.num right.num bg
  else none

/-- Abstract pixel-level semantics of the collaborator raster kernels; the
source never inspects the produced pixels, only dimensions and arguments. -/
structure CollabSem (α : Type) where
  blurPix : ℚ → Image α → ℕ → ℕ → α
  sharpenPix : ℚ → Image α → ℕ → ℕ → α
  brightnessPix : ℚ → Image α → ℕ → ℕ → α
  saturationPix : ℚ → Image α → ℕ → ℕ → α
  contrastPix : ℚ → Image α → ℕ → ℕ → α
  affinePix : ℚ → ℚ → α → Image α → ℕ → ℕ → α
  rotatePix : ℚ → α → Image α → ℕ → ℕ → α
  resizePix : ℕ → ℕ → Image α → ℕ → ℕ → α
  flattenPix : Image α → ℕ → ℕ → α

/-- Collaborator `resize(w, h)`: forces the given dimensions (sharp rejects
non-positive ones); pixel content is the collaborator's scaling kernel. -/
def resize {α : Type} (sem : CollabSem α) (img : Image α) (w h : ℤ) :
    Option (Image α) :=
  if 0 < w ∧ 0 < h then
    some ⟨w.toNat, h.toNat, sem.resizePix w.toNat h.toNat img⟩
  else none

/-- Collaborator `flatten(true)`: dimension-preserving alpha removal. -/
def flattenImg {α : Type} (sem : CollabSem α) (img : Image α) : Image α :=
  ⟨img.width, img.height, sem.flattenPix img⟩

/-- Source `transposeImage` (part_000 lines 34-65): caps each offset from
above by the canvas dimension, then chains extract/extend per axis depending
on the offset sign. -/
def transposeImage {α : Type} (img : Image α) (txIn tyIn W H : ℤ) (bg : α) :
    Option (Image α) :=
  let tx := min txIn W
  let ty := min tyIn H
  let newWidth := W - |tx|
  let newHeight := H - |ty|
  let afterX : Option (Image α) :=
    if 0 ≤ tx then
      (extract img tx 0 newWidth H).bind fun i => extend i 0 0 tx 0 bg
    else
      (extend img 0 0 (-tx) 0 bg).bind fun i => extract i 0 0 newWidth H
  afterX.bind fun i =>
    if 0 ≤ ty then
      (extract i 0 ty newWidth newHeight).bind fun j => extend j ty 0 0 0 bg
    else
      (extend i (-ty) 0 0 0 bg).bind fun j => extract j 0 0 newWidth newHeight

/-- Source `cropToCenter` (part_000 lines 67-76): computes a center offset
from the target dimensions themselves, extracts and flattens. -/
def cropToCenter {α : Type} (sem : CollabSem α) (img : Image α)
    (width height : ℕ) : Option (Image α) :=
  let centerX : ℤ := (width : ℤ) / 2
  let centerY : ℤ := (height : ℤ) / 2
  let halfOriginalWidth : ℤ := (width : ℤ) / 2
  let halfOriginalHeight : ℤ := (height : ℤ) / 2
  let left := max 0 (centerX - halfOriginalWidth)
  let top := max 0 (centerY - halfOriginalHeight)
  (extract img left top width height).map (flattenImg sem)

/-- Transformation configuration (part_000 lines 85-96): one rational range
per effect; absent fields default to 0 and a zero range is falsy. -/
structure Config where
  shearRange : ℚ
  rotationRange : ℚ
  blurRange : ℚ
  zoomRange : ℚ
  sharpenRange : ℚ
  brightnessRange : ℚ
  saturationRange : ℚ
  contrastRange : ℚ
  transposeRange : ℚ

/-- One collaborator effect call, with the exact arguments the source passes. -/
inductive SharpOp where
  | blur : ℚ → SharpOp
  | sharpen : ℚ → SharpOp
  | brightness : ℚ → SharpOp
  | saturation : ℚ → SharpOp
  | contrast : ℚ → SharpOp
  | affine : ℚ → ℚ → SharpOp
  | rotate : ℚ → SharpOp
  | transposeOp : ℤ → ℤ → SharpOp
  | zoomOp : ℚ → SharpOp
deriving DecidableEq

/-- Observable outcome of (part of) a pipeline run: the current image if no
collaborator call failed, the effect calls made, the file paths written, and
the next unused index into the random stream. -/
structure RunResult (α : Type) where
  out : Option (Image α)
  ops : List SharpOp
  writes : List String
  draws : ℕ

/-- A pipeline stage: consumes the current image and random-stream index. -/
abbrev Stage (α : Type) := Image α → ℕ → RunResult α

/-- Sigma passed to `blur` (part_000 lines 125-131): a draw between 0.3 and
`min(blurRange * 10, 1000)`, clamped once more at the call site. -/
def blurSigma (range rand : ℚ) : ℚ :=
  max (3/10) (min (rand * (min (range * 10) 1000 - 3/10) + 3/10) 1000)

/-- Sigma passed to `sharpen` (part_000 lines 135-140): a draw between 1e-6
and `min(sharpenRange * 999999, 10)`, passed without further clamping. -/
def sharpenSigma (range rand : ℚ) : ℚ :=
  rand * (min (range * 999999) 10 - 1/1000000) + 1/1000000

/-- Blur stage (part_000 lines 125-132); skipped when the range is falsy. -/
def blurStage {α : Type} (sem : CollabSem α) (blurRange : ℚ) (ρ : ℕ → ℚ) :
    Stage α := fun img k =>
  if blurRange ≠ 0 then
    ⟨some ⟨img.width, img.height, sem.blurPix (blurSigma blurRange (ρ k)) img⟩,
     [SharpOp.blur (blurSigma blurRange (ρ k))], [], k + 1⟩
  else ⟨some img, [], [], k⟩

/-- Sharpen stage (part_000 lines 135-141). -/
def sharpenStage {α : Type} (sem : CollabSem α) (sharpenRange : ℚ) (ρ : ℕ → ℚ) :
    Stage α := fun img k =>
  if sharpenRange ≠ 0 then
    ⟨some ⟨img.width, img.height,
           sem.sharpenPix (sharpenSigma sharpenRange (ρ k)) img⟩,
     [SharpOp.sharpen (sharpenSigma sharpenRange (ρ k))], [], k + 1⟩
  else ⟨some img, [], [], k⟩

/-- Brightness stage (part_000 lines 144-147): `modulate` with `1 + sample`. -/
def brightnessStage {α : Type} (sem : CollabSem α) (brightnessRange : ℚ)
    (ρ : ℕ → ℚ) : Stage α := fun img k =>
  if brightnessRange ≠ 0 then
    ⟨some ⟨img.width, img.height,
           sem.brightnessPix (1 + getRandomInRange (ρ k) brightnessRange) img⟩,
     [SharpOp.brightness (1 + getRandomInRange (ρ k) brightnessRange)], [], k + 1⟩
  else ⟨some img, [], [], k⟩

/-- Saturation stage (part_000 lines 150-153). -/
def saturationStage {α : Type} (sem : CollabSem α) (saturationRange : ℚ)
    (ρ : ℕ → ℚ) : Stage α := fun img k =>
  if saturationRange ≠ 0 then
    ⟨some ⟨img.width, img.height,
           sem.saturationPix (1 + getRandomInRange (ρ k) saturationRange) img⟩,
     [SharpOp.saturation (1 + getRandomInRange (ρ k) saturationRange)], [], k + 1⟩
  else ⟨some img, [], [], k⟩

/-- Contrast stage (part_000 lines 156-159). -/
def contrastStage {α : Type} (sem : CollabSem α) (contrastRange : ℚ)
    (ρ : ℕ → ℚ) : Stage α := fun img k =>
  if contrastRange ≠ 0 then
    ⟨some ⟨img.width, img.height,
           sem.contrastPix (1 + getRandomInRange (ρ k) contrastRange) img⟩,
     [SharpOp.contrast (1 + getRandomInRange (ρ k) contrastRange)], [], k + 1⟩
  else ⟨some img, [], [], k⟩

/-- Shear stage (part_000 lines 162-170): affine, resize back to the working
canvas, then center-crop. -/
def shearStage {α : Type} (sem : CollabSem α) (shearRange : ℚ) (bg : α)
    (W H : ℕ) (ρ : ℕ → ℚ) : Stage α := fun img k =>
  if shearRange ≠ 0 then
    let sx := getRandomInRange (ρ k) shearRange
    let sy := getRandomInRange (ρ (k + 1)) shearRange
    let sheared : Image α := ⟨img.width, img.height, sem.affinePix sx sy bg img⟩
    ⟨(resize sem sheared W H).bind fun i => cropToCenter sem i W H,
     [SharpOp.affine sx sy], [], k + 2⟩
  else ⟨some img, [], [], k⟩

/-- Rotation stage (part_000 lines 175-182). -/
def rotationStage {α : Type} (sem : CollabSem α) (rotationRange : ℚ) (bg : α)
    (W H : ℕ) (ρ : ℕ → ℚ) : Stage α := fun img k =>
  if rotationRange ≠ 0 then
    let angle := getRandomInRange (ρ k) rotationRange
    let rotated : Image α := ⟨img.width, img.height, sem.rotatePix angle bg img⟩
    ⟨(resize sem rotated W H).bind fun i => cropToCenter sem i W H,
     [SharpOp.rotate angle], [], k + 1⟩
  else ⟨some img, [], [], k⟩

/-- Transpose stage (part_000 lines 185-190): two rounded draws, the helper,
then a center-crop back to the working canvas. -/
def transposeStage {α : Type} (sem : CollabSem α) (transposeRange : ℚ) (bg : α)
    (W H : ℕ) (ρ : ℕ → ℚ) : Stage α := fun img k =>
  if transposeRange ≠ 0 then
    let tx := jsRound ((ρ k - 1/2) * 2 * transposeRange)
    let ty := jsRound ((ρ (k + 1) - 1/2) * 2 * transposeRange)
    ⟨(transposeImage img tx ty W H bg).bind fun i => cropToCenter sem i W H,
     [SharpOp.transposeOp tx ty], [], k + 2⟩
  else ⟨some img, [], [], k⟩

/-- Scale factor of the zoom-out branch (part_000 line 208):
`Math.max(1 / (1 + Math.abs(factor)), 1)`. -/
def zoomOutScaleFactor (f : ℚ) : ℚ := max (1 / (1 + |f|)) 1

/-- Zoom stage (part_000 lines 195-222).  `W H` is the working canvas, `w h`
the original image: the zoom-out extension amounts use the original
dimensions. -/
def zoomStage {α : Type} (sem : CollabSem α) (zoomRange : ℚ) (bg : α)
    (W H w h : ℕ) (ρ : ℕ → ℚ) : Stage α := fun img k =>
  if zoomRange ≠ 0 then
    let f := (ρ k - 1/2) * 2 * zoomRange
    if 0 ≤ f then
      ⟨resize sem img (jsRound ((W : ℚ) * (1 + f))) (jsRound ((H : ℚ) * (1 + f))),
       [SharpOp.zoomOp f], [], k + 1⟩
    else
      let zoomX := jsRound ((W : ℚ) * zoomOutScaleFactor f)
      let zoomY := jsRound ((H : ℚ) * zoomOutScaleFactor f)
      ⟨(resize sem img zoomX zoomY).bind fun i =>
          extendQ i (((zoomY : ℚ) - h) / 2) (((zoomY : ℚ) - h) / 2)
            (((zoomX : ℚ) - w) / 2) (((zoomX : ℚ) - w) / 2) bg,
       [SharpOp.zoomOp f], [], k + 1⟩
  else ⟨some img, [], [], k⟩

/-- An unconditional `toFile` debug write (part_000 lines 172, 192, 224). -/
def toFileStage {α : Type} (path : String) : Stage α := fun img k =>
  ⟨some img, [], [path], k⟩

/-- Runs stages in order, short-circuiting on the first failure while
accumulating effect calls, file writes and random draws. -/
def runStages {α : Type} (ss : List (Stage α)) (img : Image α) (k : ℕ) :
    RunResult α :=
  match ss with
  | [] => ⟨some img, [], [], k⟩
  | s :: rest =>
    match (s img k).out with
    | none => ⟨none, (s img k).ops, (s img k).writes, (s img k).draws⟩
    | some img2 =>
      ⟨(runStages rest img2 (s img k).draws).out,
       (s img k).ops ++ (runStages rest img2 (s img k).draws).ops,
       (s img k).writes ++ (runStages rest img2 (s img k).draws).writes,
       (runStages rest img2 (s img k).draws).draws⟩

/-- The stage sequence of `applyTransformations` in source order
(part_000 lines 125-224). -/
def pipelineStages {α : Type} (sem : CollabSem α) (cfg : Config) (bg : α)
    (W H w h : ℕ) (ρ : ℕ → ℚ) : List (Stage α) :=
  [blurStage sem cfg.blurRange ρ,
   sharpenStage sem cfg.sharpenRange ρ,
   brightnessStage sem cfg.brightnessRange ρ,
   saturationStage sem cfg.saturationRange ρ,
   contrastStage sem cfg.contrastRange ρ,
   shearStage sem cfg.shearRange bg W H ρ,
   toFileStage "out.png",
   rotationStage sem cfg.rotationRange bg W H ρ,
   transposeStage sem cfg.transposeRange bg W H ρ,
   toFileStage "out.png",
   zoomStage sem cfg.zoomRange bg W H w h ρ,
   toFileStage "out.png"]

/-- The padded working canvas (part_000 lines 104-121): background-filled
`(w+2p) x (h+2p)` with the source composited at offset `(p, p)`. -/
def compositeCenter {α : Type} (img0 : Image α) (bg : α) (padding : ℕ) :
    Image α :=
  ⟨img0.width + 2 * padding, img0.height + 2 * padding,
   fun x y =>
     if padding ≤ x ∧ x < padding + img0.width ∧
         padding ≤ y ∧ y < padding + img0.height then
       img0.pix (x - padding) (y - padding)
     else bg⟩

/-- Final extractor (part_000 lines 229-240): center region of the original
size, clamped at 0, then a stretch resize to the original dimensions. -/
def finalExtract {α : Type} (sem : CollabSem α) (img : Image α) (w h : ℕ) :
    Option (Image α) :=
  let centerX : ℤ := (img.width : ℤ) / 2
  let centerY : ℤ := (img.height : ℤ) / 2
  let halfOriginalWidth : ℤ := (w : ℤ) / 2
  let halfOriginalHeight : ℤ := (h : ℤ) / 2
  let left := max 0 (centerX - halfOriginalWidth)
  let top := max 0 (centerY - halfOriginalHeight)
  (extract img left top w h).bind fun i => resize sem i w h

/-- Source `applyTransformations` (part_000 lines 84-243): build the padded
canvas, run the stages, then center-extract and stretch-resize back to the
original dimensions. -/
def applyTransformations {α : Type} (sem : CollabSem α) (img0 : Image α)
    (cfg : Config) (bg : α) (ρ : ℕ → ℚ) : RunResult α :=
  match runStages
      (pipelineStages sem cfg bg
        (img0.width + 2 * max img0.width img0.height)
        (img0.height + 2 * max img0.width img0.height)
        img0.width img0.height ρ)
      (compositeCenter img0 bg (max img0.width img0.height)) 0 with
  | ⟨none, ops, ws, k⟩ => ⟨none, ops, ws, k⟩
  | ⟨some timg, ops, ws, k⟩ =>
    match finalExtract sem timg img0.width img0.height with
    | none => ⟨none, ops, ws, k⟩
    | some outImg => ⟨some outImg, ops, ws, k⟩

/-! Concrete fixtures used to instantiate the universally quantified
theorems and to exhibit counterexamples. -/

/-- A concrete collaborator semantics over rational pixels: every kernel
returns the input pixel map (dimension bookkeeping is unaffected). -/
def semQ : CollabSem ℚ :=
  ⟨fun _ i => i.pix, fun _ i => i.pix, fun _ i => i.pix, fun _ i => i.pix,
   fun _ i => i.pix, fun _ _ _ i => i.pix, fun _ _ i => i.pix,
   fun _ _ i => i.pix, fun i => i.pix⟩

/-- A concrete 3x3 raster. -/
def img3 : Image ℚ := ⟨3, 3, fun x y => (x : ℚ) + y⟩

/-- A concrete 2x1 raster with distinguishable pixels. -/
def img2x1 : Image ℚ := ⟨2, 1, fun x _ => (x : ℚ) + 1⟩

/-- A concrete 1x1 raster. -/
def imgOne : Image ℚ := ⟨1, 1, fun _ _ => 7⟩

/-- The all-disabled configuration. -/
def cfgZero : Config := ⟨0, 0, 0, 0, 0, 0, 0, 0, 0⟩

/-- A random stream that always draws 0. -/
def rho0 : ℕ → ℚ := fun _ => 0

/-- A random stream that always draws 1/2. -/
def rhoHalf : ℕ → ℚ := fun _ => 1/2

/-! Helper lemmas about the collaborator region operations. -/

/-- A successful `extract` has exactly the requested dimensions. -/
theorem extract_dims {α : Type} {img : Image α} {l t w h : ℤ} {res : Image α}
    (hres : extract img l t w h = some res) :
    res.width = w.toNat ∧ res.height = h.toNat := by
  unfold extract at hres
  split at hres
  · injection hres with e
    subst e
    exact ⟨rfl, rfl⟩
  · cases hres

/-- `extract` under valid bounds yields the cropped image. -/
theorem extract_pos {α : Type} (img : Image α) (l t w h : ℤ)
    (hc : 0 ≤ l ∧ 0 ≤ t ∧ 0 < w ∧ 0 < h ∧
      l + w ≤ (img.width : ℤ) ∧ t + h ≤ (img.height : ℤ)) :
    extract img l t w h =
      some ⟨w.toNat, h.toNat, fun x y => img.pix (x + l.toNat) (y + t.toNat)⟩ := by
  unfold extract
  rw [if_pos hc]

/-- `extend` under non-negative amounts yields the padded image. -/
theorem extend_pos {α : Type} (img : Image α) (t b l r : ℤ) (bg : α)
    (hc : 0 ≤ t ∧ 0 ≤ b ∧ 0 ≤ l ∧ 0 ≤ r) :
    extend img t b l r bg =
      some ⟨img.width + l.toNat + r.toNat, img.height + t.toNat + b.toNat,
        fun x y =>
          if l.toNat ≤ x ∧ x < l.toNat + img.width ∧
              t.toNat ≤ y ∧ y < t.toNat + img.height then
            img.pix (x - l.toNat) (y - t.toNat)
          else bg⟩ := by
  unfold extend
  rw [if_pos hc]

/-- A successful `resize` has exactly the requested dimensions. -/
theorem resize_dims {α : Type} {sem : CollabSem α} {img : Image α} {w h : ℤ}
    {res : Image α} (hres : resize sem img w h = some res) :
    res.width = w.toNat ∧ res.height = h.toNat := by
  unfold resize at hres
  split at hres
  · injection hres with e
    subst e
    exact ⟨rfl, rfl⟩
  · cases hres

/-- A successful `cropToCenter` has exactly the requested dimensions. -/
theorem cropToCenter_dims {α : Type} {sem : CollabSem α} {img : Image α}
    {W H : ℕ} {out : Image α} (hs : cropToCenter sem img W H = some out) :
    out.width = W ∧ out.height = H := by
  unfold cropToCenter at hs
  rcases Option.map_eq_some'.mp hs with ⟨j, hj, rfl⟩
  obtain ⟨hw, hh⟩ := extract_dims hj
  refine ⟨?_, ?_⟩ <;> simp [flattenImg, hw, hh]

/-- A successful final extraction has exactly the original dimensions. -/
theorem finalExtract_dims {α : Type} {sem : CollabSem α} {img : Image α}
    {w h : ℕ} {out : Image α} (hs : finalExtract sem img w h = some out) :
    out.width = w ∧ out.height = h := by
  unfold finalExtract at hs
  rcases Option.bind_eq_some.mp hs with ⟨i, _, hr⟩
  obtain ⟨hw, hh⟩ := resize_dims hr
  exact ⟨by simp [hw], by simp [hh]⟩

/-! Claim theorems. -/

/-- C7: for every non-negative range and every random draw in [0, 1), the
sampler `getRandomInRange` used by the symmetric effects returns a value in
the closed interval [-range, +range]. -/
theorem C7_sampler_range (r rand : ℚ) (hr : 0 ≤ r) (h0 : 0 ≤ rand)
    (h1 : rand < 1) :
    -r ≤ getRandomInRange rand r ∧ getRandomInRange rand r ≤ r := by
  unfold getRandomInRange
  constructor
  · nlinarith [mul_nonneg h0 hr]
  · nlinarith [mul_nonneg hr (sub_nonneg.mpr h1.le)]

/-- Witness for C7 at range 3 and draw 1/2. -/
theorem C7_sampler_range_witness :
    -(3:ℚ) ≤ getRandomInRange (1/2) 3 ∧ getRandomInRange (1/2) 3 ≤ 3 :=
  C7_sampler_range 3 (1/2) (by norm_num) (by norm_num) (by norm_num)

/-- C10: `cropToCenter` always computes a zero offset (the center coordinate
and the half-width are the same floored expression), so it extracts the full
region at the origin of the image it is given. -/
theorem C10_cropToCenter_origin (α : Type) (sem : CollabSem α)
    (img : Image α) (w h : ℕ) :
    cropToCenter sem img w h = (extract img 0 0 w h).map (flattenImg sem) := by
  unfold cropToCenter
  simp

/-- C2 counterexample: -1 is a sampled zoom factor for `zoomRange = 1` and
draw 0, and the scale factor the zoom-out branch actually applies differs
from the claimed `1/(1+|factor|)`. -/
theorem C2_zoom_claim_counterexample :
    ((0:ℚ) - 1/2) * 2 * 1 = -1 ∧
      zoomOutScaleFactor (-1) ≠ 1 / (1 + |(-1 : ℚ)|) := by
  constructor
  · norm_num
  · with_unfolding_all decide

/-- C2 amended: the zoom-out scale factor is `max (1/(1+|f|)) 1`, which
equals 1 for every sampled factor, so the floor holds trivially and the
canvas is never scaled down. -/
theorem C2_zoom_floor_amended (f : ℚ) :
    zoomOutScaleFactor f = 1 ∧ 1 ≤ zoomOutScaleFactor f := by
  have h1 : (1:ℚ) / (1 + |f|) ≤ 1 := by
    rw [div_le_one (by positivity)]
    simp [abs_nonneg f]
  exact ⟨max_eq_right h1, le_max_right _ _⟩

/-- C6 counterexample: with `blurRange = 1/100` and draw 1/2 the blur stage
passes sigma 3/10, which is outside the claimed interval
`[0.3, min(blurRange * 10, 1000)]` because the claimed upper end is 1/10. -/
theorem C6_sigma_counterexample :
    (blurStage semQ (1/100) rhoHalf img3 0).ops = [SharpOp.blur (3/10)] ∧
      ¬ ((3:ℚ)/10 ≤ min ((1/100 : ℚ) * 10) 1000) := by
  constructor
  · with_unfolding_all decide
  · with_unfolding_all decide

/-- C6 amended: the blur sigma lies in `[0.3, max 0.3 (min (range*10) 1000)]`
and the sharpen sigma lies between the two endpoints `1e-6` and
`min (range*999999) 10` in whichever order they fall; the claimed intervals
are correct exactly when the range is large enough that the upper end is
above the lower end. -/
theorem C6_sigma_bounds_amended (r rand : ℚ) (h0 : 0 ≤ rand) (h1 : rand < 1) :
    (3/10 ≤ blurSigma r rand ∧
      blurSigma r rand ≤ max (3/10) (min (r * 10) 1000)) ∧
    (min (1/1000000 : ℚ) (min (r * 999999) 10) ≤ sharpenSigma r rand ∧
      sharpenSigma r rand ≤ max (1/1000000 : ℚ) (min (r * 999999) 10)) := by
  constructor
  · constructor
    · exact le_max_left _ _
    · unfold blurSigma
      rcases le_total (3/10 : ℚ) (min (r * 10) 1000) with hMa | hMa
      · have ht : rand * (min (r * 10) 1000 - 3/10) + 3/10 ≤ min (r * 10) 1000 := by
          nlinarith [mul_nonneg (sub_nonneg.mpr h1.le) (sub_nonneg.mpr hMa)]
        exact max_le (le_max_left _ _)
          (le_trans (min_le_left _ _) (le_trans ht (le_max_right _ _)))
      · have ht : rand * (min (r * 10) 1000 - 3/10) + 3/10 ≤ 3/10 := by
          nlinarith [mul_nonneg h0 (sub_nonneg.mpr hMa)]
        exact max_le (le_max_left _ _)
          (le_trans (min_le_left _ _) (le_trans ht (le_max_left _ _)))
  · unfold sharpenSigma
    constructor
    · rcases le_total (1/1000000 : ℚ) (min (r * 999999) 10) with hm | hm
      · refine le_trans (min_le_left _ _) ?_
        nlinarith [mul_nonneg h0 (sub_nonneg.mpr hm)]
      · refine le_trans (min_le_right _ _) ?_
        nlinarith [mul_nonneg (sub_nonneg.mpr h1.le) (sub_nonneg.mpr hm)]
    · rcases le_total (1/1000000 : ℚ) (min (r * 999999) 10) with hm | hm
      · refine le_trans ?_ (le_max_right _ _)
        nlinarith [mul_nonneg (sub_nonneg.mpr h1.le) (sub_nonneg.mpr hm)]
      · refine le_trans ?_ (le_max_left _ _)
        nlinarith [mul_nonneg h0 (sub_nonneg.mpr hm)]

/-- Witness for C6 amended at range 2 and draw 1/2. -/
theorem C6_sigma_bounds_amended_witness :
    ((3:ℚ)/10 ≤ blurSigma 2 (1/2) ∧
      blurSigma 2 (1/2) ≤ max (3/10) (min ((2:ℚ) * 10) 1000)) ∧
    (min (1/1000000 : ℚ) (min ((2:ℚ) * 999999) 10) ≤ sharpenSigma 2 (1/2) ∧
      sharpenSigma 2 (1/2) ≤ max (1/1000000 : ℚ) (min ((2:ℚ) * 999999) 10)) :=
  C6_sigma_bounds_amended 2 (1/2) (by norm_num) (by norm_num)

/-- C8: a falsy (zero) range makes every stage a complete, silent skip: the
image is returned unchanged, no collaborator effect call is recorded, no
file is written, no random draw is consumed, and no error is possible. -/
theorem C8_disabled_skip :
    (∀ (α : Type) (sem : CollabSem α) (ρ : ℕ → ℚ) (img : Image α) (k : ℕ),
        blurStage sem 0 ρ img k = ⟨some img, [], [], k⟩ ∧
        sharpenStage sem 0 ρ img k = ⟨some img, [], [], k⟩ ∧
        brightnessStage sem 0 ρ img k = ⟨some img, [], [], k⟩ ∧
        saturationStage sem 0 ρ img k = ⟨some img, [], [], k⟩ ∧
        contrastStage sem 0 ρ img k = ⟨some img, [], [], k⟩) ∧
    (∀ (α : Type) (sem : CollabSem α) (bg : α) (W H : ℕ) (ρ : ℕ → ℚ)
        (img : Image α) (k : ℕ),
        shearStage sem 0 bg W H ρ img k = ⟨some img, [], [], k⟩ ∧
        rotationStage sem 0 bg W H ρ img k = ⟨some img, [], [], k⟩ ∧
        transposeStage sem 0 bg W H ρ img k = ⟨some img, [], [], k⟩) ∧
    (∀ (α : Type) (sem : CollabSem α) (bg : α) (W H w h : ℕ) (ρ : ℕ → ℚ)
        (img : Image α) (k : ℕ),
        zoomStage sem 0 bg W H w h ρ img k = ⟨some img, [], [], k⟩) := by
  refine ⟨fun α sem ρ img k => ?_, fun α sem bg W H ρ img k => ?_,
    fun α sem bg W H w h ρ img k => ?_⟩
  · exact ⟨by simp [blurStage], by simp [sharpenStage], by simp [brightnessStage],
      by simp [saturationStage], by simp [contrastStage]⟩
  · exact ⟨by simp [shearStage], by simp [rotationStage], by simp [transposeStage]⟩
  · simp [zoomStage]

/-- C1: whenever the pipeline produces an output image, the final extractor
(center region of the original size, then a stretch resize) makes its
dimensions exactly the input's dimensions, for every configuration, random
stream and collaborator semantics. -/
theorem C1_dimension_invariant (α : Type) (sem : CollabSem α) (img0 : Image α)
    (cfg : Config) (bg : α) (ρ : ℕ → ℚ) (out : Image α)
    (hout : (applyTransformations sem img0 cfg bg ρ).out = some out) :
    out.width = img0.width ∧ out.height = img0.height := by
  unfold applyTransformations at hout
  split at hout
  · simp at hout
  · split at hout
    · simp at hout
    · next heq =>
      simp only [Option.some.injEq] at hout
      subst hout
      exact finalExtract_dims heq

/-- Witness for C1: a concrete 1x1 run produces a 1x1 output. -/
theorem C1_dimension_invariant_witness :
    (applyTransformations semQ imgOne cfgZero (0:ℚ) rho0).out.map Image.width
        = some 1 ∧
    (applyTransformations semQ imgOne cfgZero (0:ℚ) rho0).out.map Image.height
        = some 1 := by
  have hs : (applyTransformations semQ imgOne cfgZero (0:ℚ) rho0).out.isSome
      = true := by
    with_unfolding_all rfl
  obtain ⟨o, ho⟩ := Option.isSome_iff_exists.mp hs
  obtain ⟨hw, hh⟩ := C1_dimension_invariant ℚ semQ imgOne cfgZero 0 rho0 o ho
  rw [ho]
  simp only [Option.map_some', hw, hh]
  exact ⟨rfl, rfl⟩

/-- Every write performed by any stage of the pipeline list targets the
fixed path `out.png`. -/
theorem pipelineStages_writes {α : Type} (sem : CollabSem α) (cfg : Config)
    (bg : α) (W H w h : ℕ) (ρ : ℕ → ℚ) :
    ∀ s ∈ pipelineStages sem cfg bg W H w h ρ,
      ∀ (img : Image α) (k : ℕ) (p : String),
        p ∈ (s img k).writes → p = "out.png" := by
  intro s hs img k p hp
  simp only [pipelineStages, List.mem_cons, List.not_mem_nil, or_false] at hs
  rcases hs with rfl|rfl|rfl|rfl|rfl|rfl|rfl|rfl|rfl|rfl|rfl|rfl
  · simp only [blurStage] at hp; split at hp <;> simp at hp
  · simp only [sharpenStage] at hp; split at hp <;> simp at hp
  · simp only [brightnessStage] at hp; split at hp <;> simp at hp
  · simp only [saturationStage] at hp; split at hp <;> simp at hp
  · simp only [contrastStage] at hp; split at hp <;> simp at hp
  · simp only [shearStage] at hp; split at hp <;> simp at hp
  · simp only [toFileStage, List.mem_singleton] at hp; exact hp
  · simp only [rotationStage] at hp; split at hp <;> simp at hp
  · simp only [transposeStage] at hp; split at hp <;> simp at hp
  · simp only [toFileStage, List.mem_singleton] at hp; exact hp
  · simp only [zoomStage] at hp
    split at hp
    · split at hp <;> simp at hp
    · simp at hp
  · simp only [toFileStage, List.mem_singleton] at hp; exact hp

/-- If every stage only writes `out.png`, so does the whole run. -/
theorem runStages_writes {α : Type} (ss : List (Stage α))
    (hss : ∀ s ∈ ss, ∀ (img : Image α) (k : ℕ) (p : String),
      p ∈ (s img k).writes → p = "out.png") :
    ∀ (img : Image α) (k : ℕ) (p : String),
      p ∈ (runStages ss img k).writes → p = "out.png" := by
  induction ss with
  | nil =>
    intro img k p hp
    simp [runStages] at hp
  | cons s rest ih =>
    intro img k p hp
    rw [runStages] at hp
    split at hp
    · exact hss s (List.mem_cons_self s rest) img k p hp
    · rcases List.mem_append.mp hp with h1 | h2
      · exact hss s (List.mem_cons_self s rest) img k p h1
      · exact ih (fun t ht => hss t (List.mem_cons_of_mem s ht)) _ _ p h2

/-- C9 counterexample: a concrete successful invocation performs three file
writes, all to the shared relative path `out.png`. -/
theorem C9_writes_counterexample :
    (applyTransformations semQ imgOne cfgZero (0:ℚ) rho0).writes
        = ["out.png", "out.png", "out.png"] ∧
    (applyTransformations semQ imgOne cfgZero (0:ℚ) rho0).writes ≠ [] := by
  constructor
  · with_unfolding_all rfl
  · intro h
    rw [show (applyTransformations semQ imgOne cfgZero (0:ℚ) rho0).writes
        = ["out.png", "out.png", "out.png"] from by with_unfolding_all rfl] at h
    cases h

/-- C9 amended: every file write of every invocation targets the single
fixed relative path `out.png`, which is therefore file-system state shared
by concurrent invocations. -/
theorem C9_writes_amended (α : Type) (sem : CollabSem α) (img0 : Image α)
    (cfg : Config) (bg : α) (ρ : ℕ → ℚ) (p : String)
    (hp : p ∈ (applyTransformations sem img0 cfg bg ρ).writes) :
    p = "out.png" := by
  unfold applyTransformations at hp
  split at hp
  · next ops ws k heq =>
    have hws := congrArg RunResult.writes heq
    dsimp only at hws
    rw [← hws] at hp
    exact runStages_writes _ (pipelineStages_writes sem cfg bg _ _ _ _ ρ) _ _ p hp
  · next timg ops ws k heq =>
    have hws := congrArg RunResult.writes heq
    dsimp only at hws
    split at hp <;>
      · rw [← hws] at hp
        exact runStages_writes _ (pipelineStages_writes sem cfg bg _ _ _ _ ρ) _ _ p hp

/-- Witness for C9 amended at a concrete run. -/
theorem C9_writes_amended_witness :
    ("out.png" ∈ (applyTransformations semQ imgOne cfgZero (0:ℚ) rho0).writes) ∧
    ("out.png" : String) = "out.png" :=
  ⟨by with_unfolding_all decide,
   C9_writes_amended ℚ semQ imgOne cfgZero 0 rho0 "out.png"
     (by with_unfolding_all decide)⟩

/-- C3 counterexample: a concrete zoom-out run (working canvas 3x3 from a
1x1 original, sampled factor -1) leaves the canvas 5x5, not the
working-canvas size 3. -/
theorem C3_canvas_counterexample :
    (zoomStage semQ 1 (0:ℚ) 3 3 1 1 rho0 img3 0).out.map Image.width = some 5 ∧
      (5:ℕ) ≠ 3 := by
  constructor
  · with_unfolding_all rfl
  · decide

/-- C3 amended: the shear, rotation and transpose stages each restore the
working-canvas dimensions whenever they succeed (their trailing center-crop
forces it), but the zoom stage does not: its zoom-out branch resizes by
factor 1 and then pads by the original dimensions, growing the canvas. -/
theorem C3_canvas_amended :
    (∀ (α : Type) (sem : CollabSem α) (range : ℚ) (bg : α) (W H : ℕ)
        (ρ : ℕ → ℚ) (img : Image α) (k : ℕ) (out : Image α),
        img.width = W → img.height = H →
        ((shearStage sem range bg W H ρ img k).out = some out →
            out.width = W ∧ out.height = H) ∧
        ((rotationStage sem range bg W H ρ img k).out = some out →
            out.width = W ∧ out.height = H) ∧
        ((transposeStage sem range bg W H ρ img k).out = some out →
            out.width = W ∧ out.height = H)) ∧
    (zoomStage semQ 1 (0:ℚ) 3 3 1 1 rho0 img3 0).out.map Image.height
        = some 5 := by
  constructor
  · intro α sem range bg W H ρ img k out hw hh
    refine ⟨?_, ?_, ?_⟩
    · simp only [shearStage]
      split
      · intro hsome
        rcases Option.bind_eq_some.mp hsome with ⟨i, _, hc⟩
        exact cropToCenter_dims hc
      · intro hsome
        simp only [Option.some.injEq] at hsome
        subst hsome
        exact ⟨hw, hh⟩
    · simp only [rotationStage]
      split
      · intro hsome
        rcases Option.bind_eq_some.mp hsome with ⟨i, _, hc⟩
        exact cropToCenter_dims hc
      · intro hsome
        simp only [Option.some.injEq] at hsome
        subst hsome
        exact ⟨hw, hh⟩
    · simp only [transposeStage]
      split
      · intro hsome
        rcases Option.bind_eq_some.mp hsome with ⟨i, _, hc⟩
        exact cropToCenter_dims hc
      · intro hsome
        simp only [Option.some.injEq] at hsome
        subst hsome
        exact ⟨hw, hh⟩
  · with_unfolding_all rfl

/-- Witness for C3 amended: a concrete successful shear stage on a 3x3
canvas returns a 3x3 image. -/
theorem C3_canvas_amended_witness :
    (shearStage semQ 1 (0:ℚ) 3 3 rho0 img3 0).out.map Image.width = some 3 := by
  have hs : (shearStage semQ 1 (0:ℚ) 3 3 rho0 img3 0).out.isSome = true := by
    with_unfolding_all rfl
  obtain ⟨o, ho⟩ := Option.isSome_iff_exists.mp hs
  have h := ((C3_canvas_amended.1 ℚ semQ 1 0 3 3 rho0 img3 0 o rfl rfl).1) ho
  rw [ho]
  simp only [Option.map_some', h.1]

/-- Full characterization of a successful `extract`. -/
theorem extract_spec {α : Type} {img : Image α} {l t w h : ℤ} {res : Image α}
    (hres : extract img l t w h = some res) :
    res.width = w.toNat ∧ res.height = h.toNat ∧
      ∀ x y, res.pix x y = img.pix (x + l.toNat) (y + t.toNat) := by
  unfold extract at hres
  split at hres
  · injection hres with e
    subst e
    exact ⟨rfl, rfl, fun x y => rfl⟩
  · cases hres

/-- Full characterization of a successful `extend`. -/
theorem extend_spec {α : Type} {img : Image α} {t b l r : ℤ} {bg : α}
    {res : Image α} (hres : extend img t b l r bg = some res) :
    res.width = img.width + l.toNat + r.toNat ∧
    res.height = img.height + t.toNat + b.toNat ∧
      ∀ x y, res.pix x y =
        if l.toNat ≤ x ∧ x < l.toNat + img.width ∧
            t.toNat ≤ y ∧ y < t.toNat + img.height then
          img.pix (x - l.toNat) (y - t.toNat)
        else bg := by
  unfold extend at hres
  split at hres
  · injection hres with e
    subst e
    exact ⟨rfl, rfl, fun x y => rfl⟩
  · cases hres

/-- C4 counterexample: shifting a 2x1 image by dx = 1 yields a 1x1 image,
not the 2x1 image a pure translation with background fill would produce. -/
theorem C4_transpose_counterexample :
    (transposeImage img2x1 1 0 2 1 (0:ℚ)).map Image.width = some 1 ∧
      (1:ℕ) ≠ 2 := by
  constructor
  · with_unfolding_all rfl
  · decide

/-- C4 amended: for sampled offsets with `0 ≤ dx < W` and `0 ≤ dy < H`, the
transpose helper is not a translation: it returns an image of size
`(W - dx) x H` whose pixel `(x, y)` is the background exactly on the band
`x < dx` or `y < dy` and the *unshifted* original pixel `(x, y)` elsewhere —
the content keeps its coordinates, the vacated band is at the left/top, and
`dx` columns are cropped from the right (the negative cases are likewise
crops, with the image shrinking by `|dx|` columns and `|dy|` rows). -/
theorem C4_transpose_amended (α : Type) (img : Image α) (bg : α)
    (W H tx ty : ℤ) (htx0 : 0 ≤ tx) (htxW : tx < W) (hty0 : 0 ≤ ty)
    (htyH : ty < H) (_hw : (img.width : ℤ) = W) (hh : (img.height : ℤ) = H)
    (res : Image α) (hres : transposeImage img tx ty W H bg = some res) :
    res.width = (W - tx).toNat ∧ res.height = H.toNat ∧
      ∀ x y, x < res.width → y < res.height →
        res.pix x y =
          if (x : ℤ) < tx ∨ (y : ℤ) < ty then bg else img.pix x y := by
  simp only [transposeImage, min_eq_left htxW.le, min_eq_left htyH.le,
    abs_of_nonneg htx0, abs_of_nonneg hty0, if_pos htx0, if_pos hty0] at hres
  rcases Option.bind_eq_some.mp hres with ⟨A, hA, hY⟩
  rcases Option.bind_eq_some.mp hA with ⟨E, hE, hAe⟩
  rcases Option.bind_eq_some.mp hY with ⟨B, hB, hC⟩
  obtain ⟨hEw, hEh, hEpix⟩ := extract_spec hE
  obtain ⟨hAw, hAh, hApix⟩ := extend_spec hAe
  obtain ⟨hBw, hBh, hBpix⟩ := extract_spec hB
  obtain ⟨hCw, hCh, hCpix⟩ := extend_spec hC
  refine ⟨by omega, by omega, ?_⟩
  intro x y hx hy
  rw [hCpix x y]
  by_cases hyt : ty.toNat ≤ y
  · rw [if_pos ⟨by omega, by omega, hyt, by omega⟩, hBpix, hApix]
    have e1 : y - ty.toNat + ty.toNat = y := by omega
    have e2 : x - (0:ℤ).toNat + (0:ℤ).toNat = x := by omega
    rw [e1, e2]
    by_cases hxt : tx.toNat ≤ x
    · rw [if_pos ⟨hxt, by omega, by omega, by omega⟩, hEpix]
      have e3 : x - tx.toNat + tx.toNat = x := by omega
      have e4 : y - (0:ℤ).toNat + (0:ℤ).toNat = y := by omega
      rw [e3, e4, if_neg (by omega)]
    · rw [if_neg (by omega), if_pos (Or.inl (by omega))]
  · rw [if_neg (by omega), if_pos (Or.inr (by omega))]

/-- Witness for C4 amended: offsets (1, 1) on a 3x3 image yield width 2. -/
theorem C4_transpose_amended_witness :
    (transposeImage img3 1 1 3 3 (0:ℚ)).map Image.width = some 2 := by
  have hs : (transposeImage img3 1 1 3 3 (0:ℚ)).isSome = true := by
    with_unfolding_all rfl
  obtain ⟨res, hres⟩ := Option.isSome_iff_exists.mp hs
  obtain ⟨hwid, _, _⟩ := C4_transpose_amended ℚ img3 0 3 3 1 1
    (by omega) (by omega) (by omega) (by omega) rfl rfl res hres
  rw [hres]
  simp only [Option.map_some', hwid]
  rfl

/-- C5 counterexample: with `transposeRange = 10` on a 3x3 working canvas
and draws 0, the sampled offset -10 is not magnitude-capped, the region
passed to `extract` has negative width, and the stage fails. -/
theorem C5_cap_counterexample :
    (transposeStage semQ 10 (0:ℚ) 3 3 rho0 img3 0).out = none ∧
      jsRound ((rho0 0 - 1/2) * 2 * 10) = -10 := by
  constructor
  · with_unfolding_all rfl
  · with_unfolding_all decide

/-- C5 amended: only the positive side of each offset is capped, so the
error branch of `extract` is reachable for sampled negative offsets of
magnitude at least the canvas dimension; for every offset pair with
`|dx| < W` and `|dy| < H` all regions passed to `extract` are positive and
in bounds and the transpose helper succeeds. -/
theorem C5_transpose_safe_amended (α : Type) (img : Image α) (bg : α)
    (W H tx ty : ℤ) (htx : |tx| < W) (hty : |ty| < H)
    (hw : (img.width : ℤ) = W) (hh : (img.height : ℤ) = H) :
    (transposeImage img tx ty W H bg).isSome = true := by
  have htxW : tx ≤ W := le_trans (le_abs_self tx) htx.le
  have htyH : ty ≤ H := le_trans (le_abs_self ty) hty.le
  have habsx := abs_nonneg tx
  have habsy := abs_nonneg ty
  simp only [transposeImage, min_eq_left htxW, min_eq_left htyH]
  rcases le_or_lt 0 tx with htx0 | htx0
  · simp only [abs_of_nonneg htx0] at htx ⊢
    rw [if_pos htx0]
    obtain ⟨E, hE⟩ : ∃ E, extract img tx 0 (W - tx) H = some E :=
      ⟨_, extract_pos img tx 0 (W - tx) H
        ⟨htx0, le_refl 0, by omega, by omega, by omega, by omega⟩⟩
    obtain ⟨hEw, hEh, _⟩ := extract_spec hE
    rw [hE]
    simp only [Option.some_bind]
    obtain ⟨A, hA⟩ : ∃ A, extend E 0 0 tx 0 bg = some A :=
      ⟨_, extend_pos E 0 0 tx 0 bg ⟨le_refl 0, le_refl 0, htx0, le_refl 0⟩⟩
    obtain ⟨hAw, hAh, _⟩ := extend_spec hA
    rw [hA]
    simp only [Option.some_bind]
    rcases le_or_lt 0 ty with hty0 | hty0
    · simp only [abs_of_nonneg hty0] at hty ⊢
      rw [if_pos hty0]
      obtain ⟨B, hB⟩ : ∃ B, extract A 0 ty (W - tx) (H - ty) = some B :=
        ⟨_, extract_pos A 0 ty (W - tx) (H - ty)
          ⟨le_refl 0, hty0, by omega, by omega, by omega, by omega⟩⟩
      rw [hB]
      simp only [Option.some_bind]
      obtain ⟨C, hC⟩ : ∃ C, extend B ty 0 0 0 bg = some C :=
        ⟨_, extend_pos B ty 0 0 0 bg ⟨hty0, le_refl 0, le_refl 0, le_refl 0⟩⟩
      rw [hC]
      rfl
    · simp only [abs_of_neg hty0] at hty ⊢
      rw [if_neg (not_le.mpr hty0)]
      obtain ⟨B, hB⟩ : ∃ B, extend A (-ty) 0 0 0 bg = some B :=
        ⟨_, extend_pos A (-ty) 0 0 0 bg
          ⟨by omega, le_refl 0, le_refl 0, le_refl 0⟩⟩
      obtain ⟨hBw, hBh, _⟩ := extend_spec hB
      rw [hB]
      simp only [Option.some_bind]
      obtain ⟨C, hC⟩ : ∃ C, extract B 0 0 (W - tx) (H - -ty) = some C :=
        ⟨_, extract_pos B 0 0 (W - tx) (H - -ty)
          ⟨le_refl 0, le_refl 0, by omega, by omega, by omega, by omega⟩⟩
      rw [hC]
      rfl
  · simp only [abs_of_neg htx0] at htx ⊢
    rw [if_neg (not_le.mpr htx0)]
    obtain ⟨E, hE⟩ : ∃ E, extend img 0 0 (-tx) 0 bg = some E :=
      ⟨_, extend_pos img 0 0 (-tx) 0 bg
        ⟨le_refl 0, le_refl 0, by omega, le_refl 0⟩⟩
    obtain ⟨hEw, hEh, _⟩ := extend_spec hE
    rw [hE]
    simp only [Option.some_bind]
    obtain ⟨A, hA⟩ : ∃ A, extract E 0 0 (W - -tx) H = some A :=
      ⟨_, extract_pos E 0 0 (W - -tx) H
        ⟨le_refl 0, le_refl 0, by omega, by omega, by omega, by omega⟩⟩
    obtain ⟨hAw, hAh, _⟩ := extract_spec hA
    rw [hA]
    simp only [Option.some_bind]
    rcases le_or_lt 0 ty with hty0 | hty0
    · simp only [abs_of_nonneg hty0] at hty ⊢
      rw [if_pos hty0]
      obtain ⟨B, hB⟩ : ∃ B, extract A 0 ty (W - -tx) (H - ty) = some B :=
        ⟨_, extract_pos A 0 ty (W - -tx) (H - ty)
          ⟨le_refl 0, hty0, by omega, by omega, by omega, by omega⟩⟩
      rw [hB]
      simp only [Option.some_bind]
      obtain ⟨C, hC⟩ : ∃ C, extend B ty 0 0 0 bg = some C :=
        ⟨_, extend_pos B ty 0 0 0 bg ⟨hty0, le_refl 0, le_refl 0, le_refl 0⟩⟩
      rw [hC]
      rfl
    · simp only [abs_of_neg hty0] at hty ⊢
      rw [if_neg (not_le.mpr hty0)]
      obtain ⟨B, hB⟩ : ∃ B, extend A (-ty) 0 0 0 bg = some B :=
        ⟨_, extend_pos A (-ty) 0 0 0 bg
          ⟨by omega, le_refl 0, le_refl 0, le_refl 0⟩⟩
      obtain ⟨hBw, hBh, _⟩ := extend_spec hB
      rw [hB]
      simp only [Option.some_bind]
      obtain ⟨C, hC⟩ : ∃ C, extract B 0 0 (W - -tx) (H - -ty) = some C :=
        ⟨_, extract_pos B 0 0 (W - -tx) (H - -ty)
          ⟨le_refl 0, le_refl 0, by omega, by omega, by omega, by omega⟩⟩
      rw [hC]
      rfl

/-- Witness for C5 amended: offsets (-1, 0) on a 2x1 image succeed. -/
theorem C5_transpose_safe_amended_witness :
    (transposeImage img2x1 (-1) 0 2 1 (0:ℚ)).isSome = true :=
  C5_transpose_safe_amended ℚ img2x1 0 2 1 (-1) 0
    (by decide) (by decide) rfl rfl

end ImageAug
